import Mathlib

/-!
Verification development for the worklog aggregation engine of
`backend/app/worklog_fetcher.py`.

The engine is shallowly embedded: every definition below mirrors a function,
loop or filter of `get_team_worklog` and its helpers.  Loosely typed Python
values that the code inspects dynamically are modelled with the small sum type
`PyVal` (`None` / `int` / `str`); fields whose dynamic type never influences
the behaviour under study are given their natural Lean type.  Calendar dates
are modelled as integer day numbers (day 0 = 1970-01-01, a Thursday), so that
Python's `datetime.date` comparisons become integer comparisons and
`datetime.weekday()` becomes `(d + 3) % 7` (Monday = 0 .. Sunday = 6).
Python exceptions are modelled with `Except Unit`.
-/

namespace Worklog

/-- A loosely typed Python value, as far as the engine inspects one:
`None`, an `int`, or a `str`. -/
inductive PyVal where
  | none
  | int (n : Int)
  | str (s : String)
  deriving Repr, DecidableEq

/-- Python truthiness for `PyVal` (`None`, `0` and `""` are falsy). -/
def pyTruthy : PyVal → Bool
  | .none => false
  | .int n => n ≠ 0
  | .str s => s ≠ ""

/-- Python `a or b` (returns `a` when truthy, else `b`). -/
def pyOr (a b : PyVal) : PyVal := if pyTruthy a then a else b

/-- Reads a nonempty all-digit character list as a natural number;
`none` when empty or when a non-digit occurs. -/
def digitsToNat (cs : List Char) : Option Nat :=
  match cs with
  | [] => Option.none
  | _ =>
    cs.foldl
      (fun acc c =>
        match acc with
        | Option.none => Option.none
        | Option.some n => if c.isDigit then Option.some (n * 10 + (c.toNat - 48)) else Option.none)
      (Option.some 0)

/-- Python `str.strip()` at the character-list level: drop whitespace from
both ends. -/
def pyStrip (s : String) : List Char :=
  (((s.toList).dropWhile Char.isWhitespace).reverse.dropWhile Char.isWhitespace).reverse

/-- `str.strip()` returning a string again. -/
def stripStr (s : String) : String := String.mk (pyStrip s)

/-- Python `int(s)` on a string: strips surrounding whitespace, accepts an
optional single leading sign followed by at least one digit; `none` models the
`ValueError` raised on any other shape.  (Unicode digits and `_` separators,
accepted by CPython, never occur in the inputs under study and are not
modelled.) -/
def pyParseInt (s : String) : Option Int :=
  match pyStrip s with
  | [] => Option.none
  | c :: rest =>
    if c = '+' then (digitsToNat rest).map Int.ofNat
    else if c = '-' then (digitsToNat rest).map (fun n => -(n : Int))
    else (digitsToNat (c :: rest)).map Int.ofNat

/-- Python `int(x)` on a `PyVal`; `Except.error` models the raised
`TypeError`/`ValueError`. -/
def pyToInt : PyVal → Except Unit Int
  | .none => .error ()
  | .int n => .ok n
  | .str s =>
    match pyParseInt s with
    | Option.some n => .ok n
    | Option.none => .error ()

/-- `_coerce_issue_id` (worklog_fetcher.py:61-74): an `int` is returned as-is;
a string is stripped and accepted only when nonempty and all digits
(`str.isdigit`); everything else coerces to `None`. -/
def coerce_issue_id : PyVal → Option Int
  | .int n => Option.some n
  | .str s =>
    let t := pyStrip s
    if t ≠ [] ∧ t.all Char.isDigit then (digitsToNat t).map Int.ofNat
    else Option.none
  | .none => Option.none

/-! ## Date window resolution (worklog_fetcher.py:225-248)

`get_team_worklog` receives `days : str | int` and resolves a concrete
`[start_date, end_date]` window.  Only the calendar-day content of the window
is modelled (the code compares `.date()` values everywhere the window is
used), so a window is a pair of day numbers, inclusive on both ends. -/

/-- The `days` parameter of `get_team_worklog` (`str | int`). -/
inductive DaysParam where
  | int (n : Int)
  | str (s : String)
  deriving Repr, DecidableEq

/-- Python `datetime.weekday()` for a day number (Monday = 0 .. Sunday = 6);
day 0 = 1970-01-01 was a Thursday, hence the `+ 3`. -/
def weekday (d : Int) : Int := (d + 3) % 7

/-- The `while previous_day.weekday() >= 5` walk (worklog_fetcher.py:231-232),
stepping one day backwards while on a weekend.  The Python loop is unbounded;
here it carries fuel, and `previousWorkday_never_weekend` below proves that
fuel 7 is never exhausted (at most two consecutive weekend days exist), so the
bounded function agrees with the unbounded loop. -/
def prevWorkdayFrom (fuel : Nat) (d : Int) : Int :=
  match fuel with
  | 0 => d
  | Nat.succ f => if 5 ≤ weekday d then prevWorkdayFrom f (d - 1) else d

/-- `previous_workday` resolution (worklog_fetcher.py:227-234): start from
yesterday and walk back over the weekend. -/
def previousWorkday (today : Int) : Int := prevWorkdayFrom 7 (today - 1)

/-- The date-window resolution of `get_team_worklog`
(worklog_fetcher.py:225-248), at calendar-day granularity.  The `else` branch
runs `int(days)` on a string, which raises on non-numeric input — modelled by
`Except.error`. -/
def resolveWindow (today : Int) : DaysParam → Except Unit (Int × Int)
  | .int n => .ok (today - n, today)
  | .str s =>
    if s = "previous_workday" then
      .ok (previousWorkday today, previousWorkday today)
    else if s = "today" then .ok (today, today)
    else if s = "yesterday" then .ok (today - 1, today - 1)
    else
      match pyParseInt s with
      | Option.some n => .ok (today - n, today)
      | Option.none => .error ()

/-! ## Change-feed pagination loop (worklog_fetcher.py:395-428, C3)

`_get_worklogs_via_updated` pages through `worklog/updated` with a `safety`
counter: at most 50 requests are ever issued (`if safety > 50: break`).  The
feed is an oracle from the `since` cursor to a response; `none` models a
non-200 status, which raises. -/

/-- One page of the `worklog/updated` change feed: the `values` list (each
element's `worklogId`, when it is an `int`), the `lastPage` flag
(`payload.get("lastPage") is True`), and the `until` cursor when it is an
`int` (`none` models a missing or non-integer `until`). -/
structure FeedPage where
  values : List (Option Int)
  lastPage : Bool
  untilCur : Option Int
  deriving Repr, DecidableEq

/-- The id-deduplication of worklog_fetcher.py:418-422: append each integer
`worklogId` not already seen, preserving order. -/
def feedCollectIds (acc : List Int) (values : List (Option Int)) : List Int :=
  values.foldl
    (fun a v =>
      match v with
      | Option.some w => if w ∈ a then a else a ++ [w]
      | Option.none => a)
    acc

/-- The pagination loop of `_get_worklogs_via_updated`
(worklog_fetcher.py:408-428).  The fuel argument mirrors the `safety` counter
(started at 50); the returned `Nat` counts the requests actually issued.
Stops on: cap exhausted, `lastPage = true`, missing/non-integer `until`, or an
`until` that does not advance strictly past `since`; a non-200 response
(oracle `none`) raises. -/
def getWorklogsViaUpdated (feed : Int → Option FeedPage) :
    Nat → Int → List Int → (Except Unit (List Int)) × Nat
  | 0, _, acc => (.ok acc, 0)
  | Nat.succ f, since, acc =>
    match feed since with
    | Option.none => (.error (), 1)
    | Option.some p =>
      let acc2 := feedCollectIds acc p.values
      if p.lastPage = true then (.ok acc2, 1)
      else
        match p.untilCur with
        | Option.none => (.ok acc2, 1)
        | Option.some u =>
          if u ≤ since then (.ok acc2, 1)
          else
            let r := getWorklogsViaUpdated feed f u acc2
            (r.1, r.2 + 1)

/-- `true` iff a page's `until` cursor advances strictly past `since`
(the loop's forward-progress condition, worklog_fetcher.py:425-428). -/
def untilAdvances (p : FeedPage) (since : Int) : Bool :=
  match p.untilCur with
  | Option.some u => decide (since < u)
  | Option.none => false

/-! ## Engine data model

The per-user aggregate dictionaries built by `get_team_worklog`
(worklog_fetcher.py:446-456) and the normalized entry dictionaries appended to
them.  `total_hours` is a floating-point display field always recomputed as
`total_seconds / 3600.0`; it is derived data and not modelled. -/

/-- A row of the local `User` table, as used by the engine (id,
`display_name`, `jira_account_id`). -/
structure UserRec where
  id : Nat
  display_name : Option String
  jira_account_id : Option String
  deriving Repr, DecidableEq

/-- One entry dictionary appended to a user's `entries` list.  `worklog_date`
is a calendar-day number (`none` models Python `None`); `started` is the raw
source timestamp string passed through for display. -/
structure Entry where
  issue_key : String
  issue_summary : String
  started : Option String
  worklog_date : Option Int
  time_spent_seconds : Int
  time_spent : String
  comment : String
  deriving Repr, DecidableEq

/-- A per-user aggregate dictionary (worklog_fetcher.py:449-456). -/
structure UserAgg where
  user_id : Nat
  user_name : Option String
  user_account_id : Option String
  total_seconds : Int
  entries : List Entry
  deriving Repr, DecidableEq

/-- One aggregation step as performed at every source's merge site: the
account id used to locate the user, the seconds added to `total_seconds`, and
the entry appended to `entries`. -/
structure PushItem where
  account : String
  secs : Int
  entry : Entry
  deriving Repr, DecidableEq

/-- `u.jira_account_id` is truthy (present and nonempty), the condition of the
`user_by_account_id` comprehension (worklog_fetcher.py:212). -/
def truthyAccount (u : UserRec) : Bool :=
  match u.jira_account_id with
  | Option.some s => s ≠ ""
  | Option.none => false

/-- `user_by_account_id[a]` (worklog_fetcher.py:212): a dict comprehension over
`users`, so a later user with the same account id overwrites an earlier one. -/
def lookupUser (users : List UserRec) (a : String) : Option UserRec :=
  ((users.filter truthyAccount).reverse).find? (fun u => u.jira_account_id = Option.some a)

/-- `a in user_by_account_id`, the membership test every source applies. -/
def trackedOf (users : List UserRec) (a : String) : Bool := (lookupUser users a).isSome

/-- The zero-total aggregate created for each user
(worklog_fetcher.py:449-456); `user_name` is
`user.display_name or user.jira_account_id`. -/
def initUserAgg (u : UserRec) : UserAgg :=
  { user_id := u.id
    user_name :=
      match u.display_name with
      | Option.some s => if s ≠ "" then Option.some s else u.jira_account_id
      | Option.none => u.jira_account_id
    user_account_id := u.jira_account_id
    total_seconds := 0
    entries := [] }

/-- Replace the first aggregate with the given `user_id` (the dict update
`user_worklog[user.id]`). -/
def updateFirst (st : List UserAgg) (uid : Nat) (f : UserAgg → UserAgg) : List UserAgg :=
  match st with
  | [] => []
  | a :: t => if a.user_id = uid then f a :: t else a :: updateFirst t uid f

/-- The merge site common to all four sources: look the account up in
`user_by_account_id`, add `secs` to the user's `total_seconds` and append the
entry to its `entries` (e.g. worklog_fetcher.py:534-561). -/
def pushEntry (users : List UserRec) (st : List UserAgg) (it : PushItem) : List UserAgg :=
  match lookupUser users it.account with
  | Option.none => st
  | Option.some u =>
    updateFirst st u.id (fun g =>
      { g with
        total_seconds := g.total_seconds + it.secs
        entries := g.entries ++ [it.entry] })

/-- Merge a source's normalized items into the aggregate state, in order. -/
def mergeItems (users : List UserRec) (st : List UserAgg) (items : List PushItem) :
    List UserAgg :=
  items.foldl (pushEntry users) st

/-- Stable insertion keeping descending `total_seconds` order (a later element
goes after all existing elements with a greater-or-equal total). -/
def insertByTotal (a : UserAgg) : List UserAgg → List UserAgg
  | [] => [a]
  | b :: t => if b.total_seconds < a.total_seconds then a :: b :: t else b :: insertByTotal a t

/-- `sorted(user_worklog.values(), key=..., reverse=True)`
(worklog_fetcher.py:845): a stable descending sort by `total_seconds`. -/
def sortByTotal (l : List UserAgg) : List UserAgg :=
  l.foldl (fun acc a => insertByTotal a acc) []

/-- The exact integer sum of the `time_spent_seconds` of a list of entries. -/
def entriesTotal (es : List Entry) : Int := (es.map Entry.time_spent_seconds).sum

/-! ## Primary source collector (worklog_fetcher.py:458-561, C4/C7/C8) -/

/-- A source timestamp: the raw string and the calendar day produced by the
two-encoding ISO-8601 parse of worklog_fetcher.py:479-489 (`none` = the parse
raised). -/
structure Stamp where
  raw : String
  day : Option Int
  deriving Repr, DecidableEq

/-- A hydrated worklog record from `worklog/list`, at the fields the primary
path reads.  `comment` is the `_comment_to_text` result and
`issue_id`/`issue_key` the `_extract_issue_ref_from_worklog` result — both
helpers are total (never raise) and their internals are not under study, so
the record carries their outputs. -/
structure RawWorklog where
  author_accountId : Option String
  started : Option Stamp
  timeSpentSeconds : PyVal
  timeSpent : Option String
  comment : String
  issue_id : Option Int
  issue_key : String
  deriving Repr, DecidableEq

/-- A normalized primary-path record (the dict of worklog_fetcher.py:501-510). -/
structure PrimItem where
  account_id : String
  started : String
  worklog_date : Int
  time_spent_seconds : Int
  time_spent : String
  comment : String
  issue_id : Option Int
  issue_key : String
  deriving Repr, DecidableEq

/-- Normalization of one hydrated record (worklog_fetcher.py:468-510):
drop when the author is missing or untracked, when `started` is falsy,
unparseable, or outside the window; `int(wl.get("timeSpentSeconds") or 0)`
(line 505) may raise, which aborts the whole primary path. -/
def primNorm1 (tracked : String → Bool) (ws we : Int) (wl : RawWorklog) :
    Except Unit (Option PrimItem) :=
  match wl.author_accountId with
  | Option.none => .ok Option.none
  | Option.some a =>
    if a = "" ∨ ¬ tracked a then .ok Option.none
    else
      match wl.started with
      | Option.none => .ok Option.none
      | Option.some st =>
        if st.raw = "" then .ok Option.none
        else
          match st.day with
          | Option.none => .ok Option.none
          | Option.some d =>
            if d < ws ∨ we < d then .ok Option.none
            else
              match pyToInt (pyOr wl.timeSpentSeconds (.int 0)) with
              | .error e => .error e
              | .ok secs =>
                .ok (Option.some
                  { account_id := a
                    started := st.raw
                    worklog_date := d
                    time_spent_seconds := secs
                    time_spent := wl.timeSpent.getD ""
                    comment := wl.comment
                    issue_id := wl.issue_id
                    issue_key := wl.issue_key })

/-- The normalization loop over all hydrated records; any raised exception
aborts the whole list (it propagates to the `except` at line 562). -/
def primNormalize (tracked : String → Bool) (ws we : Int) :
    List RawWorklog → Except Unit (List PrimItem)
  | [] => .ok []
  | wl :: t =>
    match primNorm1 tracked ws we wl with
    | .error e => .error e
    | .ok Option.none => primNormalize tracked ws we t
    | .ok (Option.some it) =>
      match primNormalize tracked ws we t with
      | .error e => .error e
      | .ok rest => .ok (it :: rest)

/-- A work-item reference: numeric id or textual key. -/
abbrev IssueRef := Sum Int String

/-- `_fetch_issue_key_summary` as a total oracle: per-ref lookup failures are
already degraded to `(str(ref), str(ref))` inside it
(worklog_fetcher.py:376-393), and the thread-pool maps of
worklog_fetcher.py:512-531 memoize exactly this function, so batch resolution
equals pointwise application. -/
abbrev Resolver := IssueRef → String × String

/-- Entry construction of the primary merge loop (worklog_fetcher.py:533-561).
Every collected numeric id is a key of `issue_meta` and every collected
nonempty textual key a key of `issue_meta_by_key` (they were gathered from the
same normalized list at lines 495-499), so the unreachable `elif` fallbacks of
lines 546-551 are not modelled. -/
def primBuild (resolver : Resolver) (it : PrimItem) : PushItem :=
  let ks : String × String :=
    match it.issue_id with
    | Option.some i => resolver (Sum.inl i)
    | Option.none =>
      if it.issue_key ≠ "" then resolver (Sum.inr it.issue_key) else ("", "")
  { account := it.account_id
    secs := it.time_spent_seconds
    entry :=
      { issue_key := ks.1
        issue_summary := ks.2
        started := Option.some it.started
        worklog_date := Option.some it.worklog_date
        time_spent_seconds := it.time_spent_seconds
        time_spent := it.time_spent
        comment := it.comment } }

/-- The whole primary path up to (and excluding) the merge into
`user_worklog`: fetch (`primRaw`, the `_get_worklogs_via_updated` result),
normalize, resolve metadata, build the entries.  The merge loop itself
(worklog_fetcher.py:533-561) performs only guarded dict reads and appends and
cannot raise, so every exception of the primary path surfaces here. -/
def primaryCollect (tracked : String → Bool) (ws we : Int) (resolver : Resolver)
    (primRaw : Except Unit (List RawWorklog)) : Except Unit (List PushItem) :=
  match primRaw with
  | .error e => .error e
  | .ok raw =>
    match primNormalize tracked ws we raw with
    | .error e => .error e
    | .ok items => .ok (items.map (primBuild resolver))

/-! ## Legacy source collector (worklog_fetcher.py:562-689, C4/C7/C8)

Issue discovery (JQL strategies, worklog_fetcher.py:567-615) and the
thread-pool hydration (617-641) are upstream of the per-record filter under
study; the collector is modelled from the hydrated `issues_to_check` onward:
a list of issues, each with its fetched summary and worklog list. -/

/-- A worklog record of the legacy path, at the fields read in
worklog_fetcher.py:649-689.  `timeSpentSeconds` models
`wl.get("timeSpentSeconds", 0)` (0 when absent). -/
structure LegacyWL where
  author_accountId : Option String
  started : Option Stamp
  timeSpentSeconds : Int
  timeSpent : String
  comment : String
  deriving Repr, DecidableEq

/-- One discovered issue with its hydrated worklogs and summary. -/
structure LegacyIssue where
  issue_key : String
  issue_summary : String
  worklogs : List LegacyWL
  deriving Repr, DecidableEq

/-- Per-record filter of the legacy path (worklog_fetcher.py:649-689): drop
untracked authors; when `started` is truthy, drop records whose timestamp does
not parse or whose day is outside the window — but a record with a falsy
`started` is kept with `worklog_date = None` (no window check applies). -/
def legacyProcessWL (tracked : String → Bool) (ws we : Int)
    (ik isum : String) (wl : LegacyWL) : Option PushItem :=
  match wl.author_accountId with
  | Option.none => Option.none
  | Option.some a =>
    if a = "" ∨ ¬ tracked a then Option.none
    else
      let push : Option Int → Option String → Option PushItem := fun d rawStarted =>
        Option.some
          { account := a
            secs := wl.timeSpentSeconds
            entry :=
              { issue_key := ik
                issue_summary := isum
                started := rawStarted
                worklog_date := d
                time_spent_seconds := wl.timeSpentSeconds
                time_spent := wl.timeSpent
                comment := wl.comment } }
      match wl.started with
      | Option.none => push Option.none Option.none
      | Option.some st =>
        if st.raw = "" then push Option.none (Option.some st.raw)
        else
          match st.day with
          | Option.none => Option.none
          | Option.some d =>
            if d < ws ∨ we < d then Option.none
            else push (Option.some d) (Option.some st.raw)

/-- The legacy merge input: all surviving records of all hydrated issues, in
issue order (worklog_fetcher.py:643-689). -/
def legacyNormalize (tracked : String → Bool) (ws we : Int) :
    List LegacyIssue → List PushItem
  | [] => []
  | iss :: t =>
    iss.worklogs.filterMap (legacyProcessWL tracked ws we iss.issue_key iss.issue_summary)
      ++ legacyNormalize tracked ws we t

/-! ## Hour-based timesheet adapter (DevSamurai, worklog_fetcher.py:691-733) -/

/-- A Python float modelled as an exact rational `num / den` (`den > 0`).
The source's hour counts are small decimal fractions, exactly representable;
the claims under study do not depend on binary-float representation
effects. -/
structure PyFloat where
  num : Int
  den : Nat
  deriving Repr, DecidableEq

/-- Python `round` applied to the exact rational `n / d` (for `d > 0`):
round-half-to-even. -/
def pyRoundDiv (n d : Int) : Int :=
  let f := Int.fdiv n d
  let r := n - f * d
  if 2 * r < d then f
  else if d < 2 * r then f + 1
  else if f % 2 = 0 then f else f + 1

/-- `_seconds_to_human` (worklog_fetcher.py:257-268):
`int(round(seconds / 60.0))` then Jira-style `"1h 30m"`. -/
def seconds_to_human (seconds : Int) : String :=
  if seconds ≤ 0 then ""
  else
    let m := pyRoundDiv seconds 60
    let h := m / 60
    let mm := m % 60
    if h ≠ 0 ∧ mm ≠ 0 then toString h ++ "h " ++ toString mm ++ "m"
    else if h ≠ 0 then toString h ++ "h"
    else toString mm ++ "m"

/-- A DevSamurai timelog at the fields read in worklog_fetcher.py:696-733.
`date` is the `YYYY-MM-DD` day (`none` = missing/falsy); `hour` is the float
hour count (`none` = missing/falsy, treated as 0); `summary` and
`logtimeType` carry the already-stripped strings of lines 714-715. -/
structure DevLog where
  assignee : Option String
  date : Option Int
  hour : Option PyFloat
  summary : String
  logtimeType : String
  loggedAt : Option String
  deriving Repr, DecidableEq

/-- Per-record processing of the hour-based adapter
(worklog_fetcher.py:696-733): drop untracked assignees and missing dates,
convert hours to seconds by `int(round(float(hours) * 3600))`, drop
non-positive results, build the event entry (empty `issue_key`). -/
def devProcess (tracked : String → Bool) (tl : DevLog) : Option PushItem :=
  match tl.assignee with
  | Option.none => Option.none
  | Option.some a =>
    if a = "" ∨ ¬ tracked a then Option.none
    else
      match tl.date with
      | Option.none => Option.none
      | Option.some d =>
        let hours := tl.hour.getD ⟨0, 1⟩
        let seconds := pyRoundDiv (hours.num * 3600) (hours.den : Int)
        if seconds ≤ 0 then Option.none
        else
          let summary := tl.summary
          let log_type := tl.logtimeType
          let comment :=
            if log_type ≠ "" then
              if summary ≠ "" then "[TimePlanner:" ++ log_type ++ "] " ++ summary
              else "[TimePlanner:" ++ log_type ++ "]"
            else summary
          Option.some
            { account := a
              secs := seconds
              entry :=
                { issue_key := ""
                  issue_summary := if log_type ≠ "" then "Event" else "TimePlanner"
                  started := tl.loggedAt
                  worklog_date := Option.some d
                  time_spent_seconds := seconds
                  time_spent := seconds_to_human seconds
                  comment := comment } }

/-- All surviving records of the hour-based adapter, in order. -/
def devNormalize (tracked : String → Bool) (logs : List DevLog) : List PushItem :=
  logs.filterMap (devProcess tracked)

/-! ## Paginated timesheet adapter (Teamboard, worklog_fetcher.py:296-374 and
738-839, C1/C2) -/

/-- A Teamboard timelog at the fields read in worklog_fetcher.py:753-793.
`issueId` and `timeSpentSeconds` keep their dynamic type (the code inspects
it); `tbType`, `notes`, `summary` carry the stripped strings of lines
788-790; `info_started` is `info.started` (line 792). -/
structure TbLog where
  assignee : Option String
  date : Option Int
  issueId : PyVal
  timeSpentSeconds : PyVal
  tbType : String
  notes : String
  summary : String
  info_started : Option String
  deriving Repr, DecidableEq

/-- `int(tl.get("timeSpentSeconds") or 0)` with the `except: seconds = 0`
of worklog_fetcher.py:771-775. -/
def tbSeconds (v : PyVal) : Int :=
  match pyToInt (pyOr v (.int 0)) with
  | .ok n => n
  | .error _ => 0

/-- `raw_issue_id in (None, "")` (worklog_fetcher.py:781): Python `in` on a
tuple compares with `==`, so only `None` and `""` are nullish. -/
def pyNullish (v : PyVal) : Bool :=
  match v with
  | .none => true
  | .str s => s = ""
  | .int _ => false

/-- Entry construction of the Teamboard merge loop
(worklog_fetcher.py:814-839).  Every kept record has `issue_id = None` (the
numeric ones were skipped at line 767), so the `issue_id is not None` branch
(line 822) never fires and `issue_meta` stays empty (nothing is ever added to
`issue_ids` at line 747). -/
def tbBuildEntry (a : String) (d : Int) (secs : Int) (ty notes summary : String)
    (info_started : Option String) : PushItem :=
  let issue_summary := if summary ≠ "" then summary else if ty ≠ "" then ty else "Event"
  let comment0 := if notes ≠ "" then notes else summary
  let comment :=
    if ty ≠ "" then stripStr ("[Teamboard:" ++ ty ++ "] " ++ comment0) else comment0
  { account := a
    secs := secs
    entry :=
      { issue_key := ""
        issue_summary := issue_summary
        started := info_started
        worklog_date := Option.some d
        time_spent_seconds := secs
        time_spent := seconds_to_human secs
        comment := comment } }

/-- Outcome of the per-record Teamboard filter. -/
inductive TbOutcome where
  | skipNoUser
  | skipNoDate
  | skipIssueLog
  | skipNonPositive
  | keep (it : PushItem) (nonNumericIssueId : Bool)
  deriving Repr, DecidableEq

/-- The per-record Teamboard filter (worklog_fetcher.py:753-794), in source
order: untracked assignee, missing date, a *numeric* `issueId` (skipped as a
Jira-duplicated log), non-positive seconds; survivors are kept, flagged when
their `issueId` was non-null but non-numeric (counted at line 782 into
`skipped_issue_logs_non_numeric` without dropping the record). -/
def tbClassify (tracked : String → Bool) (tl : TbLog) : TbOutcome :=
  match tl.assignee with
  | Option.none => .skipNoUser
  | Option.some a =>
    if a = "" ∨ ¬ tracked a then .skipNoUser
    else
      match tl.date with
      | Option.none => .skipNoDate
      | Option.some d =>
        match coerce_issue_id tl.issueId with
        | Option.some _ => .skipIssueLog
        | Option.none =>
          let secs := tbSeconds tl.timeSpentSeconds
          if secs ≤ 0 then .skipNonPositive
          else
            .keep (tbBuildEntry a d secs tl.tbType tl.notes tl.summary tl.info_started)
              (! pyNullish tl.issueId)

/-- The Teamboard merge input: the kept records in order
(`normalized_tb` composed with the entry-build loop). -/
def tbItems (tracked : String → Bool) (logs : List TbLog) : List PushItem :=
  logs.filterMap (fun tl =>
    match tbClassify tracked tl with
    | .keep it _ => Option.some it
    | _ => Option.none)

/-- The diagnostics counters written to `debug_out["sources"]["teamboard"]`
(worklog_fetcher.py:749-801). -/
structure TbStats where
  included_events : Nat
  skipped_issue_logs : Nat
  skipped_issue_logs_non_numeric : Nat
  deriving Repr, DecidableEq

/-- The counter updates of the Teamboard loop, one pass in record order. -/
def tbStats (tracked : String → Bool) (logs : List TbLog) : TbStats :=
  logs.foldl
    (fun s tl =>
      match tbClassify tracked tl with
      | .skipIssueLog => { s with skipped_issue_logs := s.skipped_issue_logs + 1 }
      | .keep _ true =>
        { s with
          included_events := s.included_events + 1
          skipped_issue_logs_non_numeric := s.skipped_issue_logs_non_numeric + 1 }
      | .keep _ false => { s with included_events := s.included_events + 1 }
      | _ => s)
    ⟨0, 0, 0⟩

/-- A response of the Teamboard `timeplanner/timelogs` endpoint: a 200 page
(`data`, `hasMore`, echoed `offset`/`limit`), a 403 whose body yields the
parsed invalid-account ids (empty list = none parseable), or any other non-200
status. -/
inductive TbResp where
  | ok (data : List TbLog) (hasMore : Bool) (offset : Option Int) (limit : Option Int)
  | forbidden (invalidIds : List String)
  | otherError

/-- `int(payload.get("offset") or offset)`: the echoed field is used unless
falsy (missing or 0), in which case the current value stands. -/
def orFalsyInt (v : Option Int) (d : Int) : Int :=
  match v with
  | Option.some n => if n = 0 then d else n
  | Option.none => d

/-- The pagination loop of `_fetch_teamboard_timelogs`
(worklog_fetcher.py:318-374).  Fuel mirrors `for _ in range(50)`; the server
is an oracle from (offset, active userIds) to a response; the trace records
every request issued (offset and userIds).  On a 403 with parseable invalid
ids the ids are removed from the active set and the *same* offset is retried
(`continue`); on a 403 without parseable ids, or any other non-200, the
adapter raises. -/
def fetchTeamboardLoop (server : Int → List String → TbResp) :
    Nat → Int → List String → List TbLog → List (Int × List String) →
    Except Unit (List TbLog × List (Int × List String))
  | 0, _, _, out, trace => .ok (out, trace)
  | Nat.succ f, off, active, out, trace =>
    if active = [] then .ok (out, trace)
    else
      let trace2 := trace ++ [(off, active)]
      match server off active with
      | .forbidden inv =>
        if inv = [] then .error ()
        else fetchTeamboardLoop server f off (active.filter (fun u => decide (u ∉ inv))) out trace2
      | .otherError => .error ()
      | .ok data hasMore offE limE =>
        if hasMore then
          fetchTeamboardLoop server f (orFalsyInt offE off + orFalsyInt limE 100) active
            (out ++ data) trace2
        else .ok (out ++ data, trace2)

/-! ## The orchestrating engine (get_team_worklog, worklog_fetcher.py:446-847) -/

/-- The whole aggregation pipeline of `get_team_worklog` after user
resolution and window computation: initialize zero totals, merge the primary
path (or, when it raised anywhere, the legacy collector instead —
worklog_fetcher.py:458-689), then each timesheet adapter (whose own fetch
failures contribute nothing, lines 691-842), and sort by descending total. -/
def runEngine (users : List UserRec) (ws we : Int) (resolver : Resolver)
    (primRaw : Except Unit (List RawWorklog))
    (legacyIssues : List LegacyIssue)
    (devRes : Except Unit (List DevLog))
    (tbRes : Except Unit (List TbLog)) : List UserAgg :=
  let tracked := trackedOf users
  let st0 := users.map initUserAgg
  let st1 :=
    match primaryCollect tracked ws we resolver primRaw with
    | .ok items => mergeItems users st0 items
    | .error _ => mergeItems users st0 (legacyNormalize tracked ws we legacyIssues)
  let st2 :=
    match devRes with
    | .ok logs => mergeItems users st1 (devNormalize tracked logs)
    | .error _ => st1
  let st3 :=
    match tbRes with
    | .ok logs => mergeItems users st2 (tbItems tracked logs)
    | .error _ => st2
  sortByTotal st3

/-- The same pipeline with the primary path absent: what the legacy collector
alone, plus the two timesheet adapters, produce. -/
def runEngineLegacyOnly (users : List UserRec) (ws we : Int)
    (legacyIssues : List LegacyIssue)
    (devRes : Except Unit (List DevLog))
    (tbRes : Except Unit (List TbLog)) : List UserAgg :=
  let tracked := trackedOf users
  let st1 := mergeItems users (users.map initUserAgg) (legacyNormalize tracked ws we legacyIssues)
  let st2 :=
    match devRes with
    | .ok logs => mergeItems users st1 (devNormalize tracked logs)
    | .error _ => st1
  let st3 :=
    match tbRes with
    | .ok logs => mergeItems users st2 (tbItems tracked logs)
    | .error _ => st2
  sortByTotal st3

/-! ## Team/user resolution prelude (worklog_fetcher.py:166-212, C10) -/

/-- The relational rows `get_team_worklog` consults before contacting any
upstream: team ids, credential-team links, team members, per-app-user team
configs `(app_user_id, team_id, jira_user_id)`, credentials
`(id, app_user_id)`, credential-user links `(credential_id, user_id)`, and
user rows. -/
structure Db where
  teams : List Nat
  credentialTeams : List (Nat × Nat)
  teamMembers : List (Nat × Nat)
  teamConfig : List (Nat × Nat × Nat)
  apiCredentials : List (Nat × Nat)
  credentialUsers : List (Nat × Nat)
  users : List UserRec
  deriving Repr

/-- The team-member id set (worklog_fetcher.py:179-188): from `TeamConfig`
when an `app_user_id` is given, else from `TeamMember`. -/
def teamUserIds (db : Db) (team_id : Nat) (app_user_id : Option Nat) : List Nat :=
  match app_user_id with
  | Option.some a =>
    ((db.teamConfig.filter (fun t => decide (t.1 = a ∧ t.2.1 = team_id))).map
      (fun t => t.2.2)).dedup
  | Option.none =>
    ((db.teamMembers.filter (fun m => decide (m.1 = team_id))).map (fun m => m.2)).dedup

/-- The credential-based visibility filter (worklog_fetcher.py:193-204):
by the app user's credentials when `app_user_id` is given, else by the one
credential; `none` = no filtering. -/
def filterUserIds (db : Db) (credential_id : Option Nat) (app_user_id : Option Nat) :
    Option (List Nat) :=
  match app_user_id with
  | Option.some a =>
    Option.some
      (((db.credentialUsers.filter (fun cu =>
          decide (∃ c ∈ db.apiCredentials, c.1 = cu.1 ∧ c.2 = a))).map
        (fun cu => cu.2)).dedup)
  | Option.none =>
    match credential_id with
    | Option.some c =>
      Option.some
        (((db.credentialUsers.filter (fun cu => decide (cu.1 = c))).map (fun cu => cu.2)).dedup)
    | Option.none => Option.none

/-- `credential_id`, when given, must be linked to the team
(worklog_fetcher.py:172-177). -/
def credAllowed (db : Db) (team_id : Nat) : Option Nat → Bool
  | Option.some c => decide ((c, team_id) ∈ db.credentialTeams)
  | Option.none => true

/-- The early-return prelude of `get_team_worklog`
(worklog_fetcher.py:166-211): `none` means the function returns `[]` before
contacting any upstream source — unknown team, credential not linked to the
team, empty member set, or credential filtering removing every member;
otherwise the tracked user rows. -/
def resolveTrackedUsers (db : Db) (team_id : Nat) (credential_id : Option Nat)
    (app_user_id : Option Nat) : Option (List UserRec) :=
  if team_id ∉ db.teams then Option.none
  else if credAllowed db team_id credential_id = false then Option.none
  else
    let user_ids := teamUserIds db team_id app_user_id
    if user_ids = [] then Option.none
    else
      let user_ids2 :=
        match filterUserIds db credential_id app_user_id with
        | Option.some f => user_ids.filter (fun u => decide (u ∈ f))
        | Option.none => user_ids
      if user_ids2 = [] then Option.none
      else Option.some (db.users.filter (fun u => decide (u.id ∈ user_ids2)))

/-- `get_team_worklog` end to end: the DB prelude, then (only when it
passes) the Jira connection (`connect`, worklog_fetcher.py:215-223, which may
raise), the window resolution (which may raise, line 246), and the engine. -/
def getTeamWorklog (db : Db) (team_id : Nat) (credential_id app_user_id : Option Nat)
    (connect : Except Unit Unit) (today : Int) (days : DaysParam)
    (resolver : Resolver) (primRaw : Except Unit (List RawWorklog))
    (legacyIssues : List LegacyIssue) (devRes : Except Unit (List DevLog))
    (tbRes : Except Unit (List TbLog)) : Except Unit (List UserAgg) :=
  match resolveTrackedUsers db team_id credential_id app_user_id with
  | Option.none => .ok []
  | Option.some users =>
    match connect with
    | .error e => .error e
    | .ok _ =>
      match resolveWindow today days with
      | .error e => .error e
      | .ok w => .ok (runEngine users w.1 w.2 resolver primRaw legacyIssues devRes tbRes)

/-- The claimed window invariant on an entry's date: present and inside
`[ws, we]` inclusive. -/
def dateInWindow (ws we : Int) : Option Int → Bool
  | Option.some d => decide (ws ≤ d ∧ d ≤ we)
  | Option.none => false

/-! # Theorems -/

theorem prevWorkdayFrom_succ (f : Nat) (d : Int) :
    prevWorkdayFrom (f + 1) d =
      if 5 ≤ weekday d then prevWorkdayFrom f (d - 1) else d := rfl

/-- Case analysis on the weekend walk: depending on yesterday's weekday the
result is yesterday, two days back (from Saturday) or three days back (from
Sunday). -/
theorem previousWorkday_cases (d : Int) :
    (weekday (d - 1) < 5 ∧ previousWorkday d = d - 1) ∨
    (weekday (d - 1) = 5 ∧ previousWorkday d = d - 2) ∨
    (weekday (d - 1) = 6 ∧ previousWorkday d = d - 3) := by
  have hb : 0 ≤ weekday (d - 1) ∧ weekday (d - 1) < 7 := by unfold weekday; omega
  have step : previousWorkday d = prevWorkdayFrom (6 + 1) (d - 1) := rfl
  rcases lt_or_ge (weekday (d - 1)) 5 with h | h
  · left
    refine ⟨h, ?_⟩
    rw [step, prevWorkdayFrom_succ, if_neg (by omega)]
  · rcases (by omega : weekday (d - 1) = 5 ∨ weekday (d - 1) = 6) with h5 | h6
    · right; left
      have h4 : weekday (d - 1 - 1) = 4 := by unfold weekday at h5 ⊢; omega
      refine ⟨h5, ?_⟩
      rw [step, prevWorkdayFrom_succ, if_pos (by omega),
        show (6 : Nat) = 5 + 1 from rfl, prevWorkdayFrom_succ, if_neg (by omega)]
      omega
    · right; right
      have h5w : weekday (d - 1 - 1) = 5 := by unfold weekday at h6 ⊢; omega
      have h4 : weekday (d - 1 - 1 - 1) = 4 := by unfold weekday at h6 ⊢; omega
      refine ⟨h6, ?_⟩
      rw [step, prevWorkdayFrom_succ, if_pos (by omega),
        show (6 : Nat) = 5 + 1 from rfl, prevWorkdayFrom_succ, if_pos (by omega),
        show (5 : Nat) = 4 + 1 from rfl, prevWorkdayFrom_succ, if_neg (by omega)]
      omega

/-- The walk always lands on a weekday (so the fuel in `prevWorkdayFrom` is
never exhausted and the model agrees with the unbounded Python loop). -/
theorem previousWorkday_never_weekend (d : Int) : weekday (previousWorkday d) < 5 := by
  rcases previousWorkday_cases d with ⟨h, e⟩ | ⟨h, e⟩ | ⟨h, e⟩
  · rw [e]; exact h
  · rw [e]; unfold weekday at h ⊢; omega
  · rw [e]; unfold weekday at h ⊢; omega

/-- C5 counterexample: the claim says the resolver has no error cases and
handles any unrecognized token via an N-day fallback with a default N; but on
the unrecognized, non-numeric token `"lastweek"` the code runs
`int("lastweek")` (worklog_fetcher.py:246), which raises `ValueError`. -/
theorem C5_counterexample :
    resolveWindow 20000 (DaysParam.str "lastweek") = .error () := by rfl

/-- C5 (amended): the resolver never raises on the recognized tokens and on
integer day counts, and an *unrecognized* token is parsed with `int(...)`: a
numeric string yields the rolling N-day window for the parsed N (there is no
default-N fallback), while a non-numeric string raises. -/
theorem C5_amended :
    (∀ today n : Int, resolveWindow today (DaysParam.int n) = .ok (today - n, today)) ∧
    (∀ today : Int, ∀ s : String, ∀ n : Int,
      s ≠ "previous_workday" → s ≠ "today" → s ≠ "yesterday" →
      pyParseInt s = Option.some n →
      resolveWindow today (DaysParam.str s) = .ok (today - n, today)) ∧
    (∀ today : Int, ∀ s : String,
      s ≠ "previous_workday" → s ≠ "today" → s ≠ "yesterday" →
      pyParseInt s = Option.none →
      resolveWindow today (DaysParam.str s) = .error ()) := by
  refine ⟨fun t n => rfl, ?_, ?_⟩
  · intro t s n h1 h2 h3 hp
    simp [resolveWindow, h1, h2, h3, hp]
  · intro t s h1 h2 h3 hp
    simp [resolveWindow, h1, h2, h3, hp]

/-- Witness for `C5_amended` at concrete inputs: the numeric string `"9"`
resolves to a 9-day window, the non-numeric `"next"` raises. -/
theorem C5_witness :
    resolveWindow 0 (DaysParam.str "9") = .ok (0 - 9, 0) ∧
    resolveWindow 0 (DaysParam.str "next") = .error () :=
  ⟨C5_amended.2.1 0 "9" 9 (by decide) (by decide) (by decide) (by rfl),
   C5_amended.2.2 0 "next" (by decide) (by decide) (by decide) (by rfl)⟩

/-- C6: `previous_workday` resolves to the single-day window of the closest
day at or before yesterday whose weekday is Mon-Fri: the result is at most
yesterday, is a weekday, and every day strictly between it and yesterday
(inclusive) is a weekend day; resolved on a Monday it is the preceding Friday
(three days back), not Sunday. -/
theorem C6_previous_workday :
    (∀ today : Int,
      resolveWindow today (DaysParam.str "previous_workday") =
        .ok (previousWorkday today, previousWorkday today) ∧
      previousWorkday today ≤ today - 1 ∧
      weekday (previousWorkday today) < 5 ∧
      (∀ x : Int, previousWorkday today < x → x ≤ today - 1 → 5 ≤ weekday x)) ∧
    (∀ today : Int, weekday today = 0 →
      previousWorkday today = today - 3 ∧ weekday (today - 3) = 4) := by
  constructor
  · intro d
    refine ⟨by simp [resolveWindow], ?_, previousWorkday_never_weekend d, ?_⟩
    · rcases previousWorkday_cases d with ⟨h, e⟩ | ⟨h, e⟩ | ⟨h, e⟩ <;> omega
    · intro x hx1 hx2
      rcases previousWorkday_cases d with ⟨h, e⟩ | ⟨h, e⟩ | ⟨h, e⟩
      · omega
      · have hx : x = d - 1 := by omega
        subst hx; omega
      · have h5w : weekday (d - 2) = 5 := by unfold weekday at h ⊢; omega
        have hx : x = d - 1 ∨ x = d - 2 := by omega
        rcases hx with hx | hx <;> subst hx <;> omega
  · intro d h0
    have h6 : weekday (d - 1) = 6 := by unfold weekday at h0 ⊢; omega
    have h4 : weekday (d - 3) = 4 := by unfold weekday at h0 ⊢; omega
    rcases previousWorkday_cases d with ⟨h, e⟩ | ⟨h, e⟩ | ⟨h, e⟩
    · omega
    · omega
    · exact ⟨by omega, h4⟩

/-- Witness for `C6_previous_workday`: day 4 (1970-01-05) is a Monday and its
previous workday is day 1 (1970-01-02), a Friday. -/
theorem C6_witness :
    weekday 4 = 0 ∧ (previousWorkday 4 = 4 - 3 ∧ weekday (4 - 3) = 4) :=
  ⟨by decide, C6_previous_workday.2 4 (by decide)⟩

theorem getWorklogsViaUpdated_succ (feed : Int → Option FeedPage) (f : Nat)
    (since : Int) (acc : List Int) :
    getWorklogsViaUpdated feed (f + 1) since acc =
      match feed since with
      | Option.none => (.error (), 1)
      | Option.some p =>
        let acc2 := feedCollectIds acc p.values
        if p.lastPage = true then (.ok acc2, 1)
        else
          match p.untilCur with
          | Option.none => (.ok acc2, 1)
          | Option.some u =>
            if u ≤ since then (.ok acc2, 1)
            else
              let r := getWorklogsViaUpdated feed f u acc2
              (r.1, r.2 + 1) := rfl

/-- The request count never exceeds the remaining `safety` budget. -/
theorem getWorklogsViaUpdated_count_le (feed : Int → Option FeedPage) :
    ∀ fuel : Nat, ∀ since : Int, ∀ acc : List Int,
      (getWorklogsViaUpdated feed fuel since acc).2 ≤ fuel := by
  intro fuel
  induction fuel with
  | zero => intro since acc; simp [getWorklogsViaUpdated]
  | succ f ih =>
    intro since acc
    rw [getWorklogsViaUpdated_succ]
    cases h : feed since with
    | none => simp
    | some p =>
      simp only []
      by_cases hl : p.lastPage = true
      · simp [hl]
      · rw [if_neg hl]
        cases hu : p.untilCur with
        | none => simp
        | some u =>
          by_cases hle : u ≤ since
          · simp [hle]
          · have := ih u (feedCollectIds acc p.values)
            simp [hle]
            omega

/-- C3: the change-feed pagination loop of `_get_worklogs_via_updated`
terminates on every feed: at most 50 requests are ever issued (the `safety`
cap), and a single request suffices when the first response has
`lastPage = true`, or when its `until` cursor is missing/non-integer or does
not advance strictly past `since` — in particular a feed that always answers
`lastPage = false` with a non-advancing `until` is abandoned after one
request. -/
theorem C3_feed_loop_terminates :
    (∀ feed : Int → Option FeedPage, ∀ since : Int, ∀ acc : List Int,
      (getWorklogsViaUpdated feed 50 since acc).2 ≤ 50) ∧
    (∀ feed : Int → Option FeedPage, ∀ since : Int, ∀ p : FeedPage,
      feed since = Option.some p → p.lastPage = false → untilAdvances p since = false →
      (getWorklogsViaUpdated feed 50 since []).2 = 1) ∧
    (∀ feed : Int → Option FeedPage, ∀ since : Int, ∀ p : FeedPage,
      feed since = Option.some p → p.lastPage = true →
      (getWorklogsViaUpdated feed 50 since []).2 = 1) := by
  refine ⟨fun feed since acc => getWorklogsViaUpdated_count_le feed 50 since acc, ?_, ?_⟩
  · intro feed since p hf hl ha
    have e : getWorklogsViaUpdated feed 50 since [] =
        getWorklogsViaUpdated feed (49 + 1) since [] := rfl
    rw [e, getWorklogsViaUpdated_succ, hf]
    simp only [hl, if_false]
    unfold untilAdvances at ha
    cases hu : p.untilCur with
    | none => simp
    | some u =>
      rw [hu] at ha
      simp only [decide_eq_false_iff_not, not_lt] at ha
      simp [ha]
  · intro feed since p hf hl
    have e : getWorklogsViaUpdated feed 50 since [] =
        getWorklogsViaUpdated feed (49 + 1) since [] := rfl
    rw [e, getWorklogsViaUpdated_succ, hf]
    simp [hl]

/-- Witness for `C3_feed_loop_terminates`: a feed that always returns
`lastPage = false` and echoes the request's own cursor as `until`
(non-advancing) is abandoned after exactly one request. -/
theorem C3_witness :
    (getWorklogsViaUpdated
      (fun s => Option.some (FeedPage.mk [] false (Option.some s))) 50 0 []).2 = 1 :=
  C3_feed_loop_terminates.2.1 (fun s => Option.some (FeedPage.mk [] false (Option.some s)))
    0 (FeedPage.mk [] false (Option.some 0)) rfl rfl (by decide)

theorem fetchTeamboardLoop_succ (server : Int → List String → TbResp) (f : Nat)
    (off : Int) (active : List String) (out : List TbLog)
    (trace : List (Int × List String)) :
    fetchTeamboardLoop server (f + 1) off active out trace =
      (if active = [] then .ok (out, trace)
      else
        let trace2 := trace ++ [(off, active)]
        match server off active with
        | .forbidden inv =>
          if inv = [] then .error ()
          else
            fetchTeamboardLoop server f off (active.filter (fun u => decide (u ∉ inv))) out trace2
        | .otherError => .error ()
        | .ok data hasMore offE limE =>
          if hasMore then
            fetchTeamboardLoop server f (orFalsyInt offE off + orFalsyInt limE 100) active
              (out ++ data) trace2
          else .ok (out ++ data, trace2)) := rfl

/-- C2: when the Teamboard adapter's first page request is rejected with a 403
whose body names invalid account ids, the adapter removes exactly those ids
from the request's account-id set and retries the *same* offset with the
remaining ids (the request trace shows both requests at offset 0), and the
entries served for the remaining ids are returned; and a 403 from which no
invalid ids can be parsed raises (is fatal to the adapter). -/
theorem C2_teamboard_partial_rejection
    (server : Int → List String → TbResp) (S I : List String)
    (D : List TbLog) (offE limE : Option Int)
    (h403 : server 0 S = TbResp.forbidden I)
    (hI : I ≠ [])
    (hR : S.filter (fun u => decide (u ∉ I)) ≠ [])
    (hok : server 0 (S.filter (fun u => decide (u ∉ I))) = TbResp.ok D false offE limE) :
    (fetchTeamboardLoop server 50 0 S [] [] =
      .ok (D, [(0, S), (0, S.filter (fun u => decide (u ∉ I)))])) ∧
    (∀ server2 : Int → List String → TbResp, server2 0 S = TbResp.forbidden [] →
      fetchTeamboardLoop server2 50 0 S [] [] = .error ()) := by
  have hS : S ≠ [] := by
    intro h
    rw [h] at hR
    exact hR rfl
  constructor
  · have e : fetchTeamboardLoop server 50 0 S [] [] =
        fetchTeamboardLoop server (49 + 1) 0 S [] [] := rfl
    rw [e, fetchTeamboardLoop_succ, if_neg hS, h403]
    simp only [hI, if_neg]
    have e2 : fetchTeamboardLoop server 49 0 (S.filter (fun u => decide (u ∉ I))) []
          ([] ++ [(0, S)]) =
        fetchTeamboardLoop server (48 + 1) 0 (S.filter (fun u => decide (u ∉ I))) []
          ([] ++ [(0, S)]) := rfl
    rw [e2, fetchTeamboardLoop_succ, if_neg hR, hok]
    simp
  · intro server2 h2
    have e : fetchTeamboardLoop server2 50 0 S [] [] =
        fetchTeamboardLoop server2 (49 + 1) 0 S [] [] := rfl
    rw [e, fetchTeamboardLoop_succ, if_neg hS, h2]
    simp

/-- Witness for `C2_teamboard_partial_rejection`: five account ids, two of
which the server rejects; the retry carries exactly the remaining three and
its page is returned. -/
theorem C2_witness :
    fetchTeamboardLoop
      (fun _ ids =>
        if ids = ["a", "b", "c", "d", "e"] then TbResp.forbidden ["b", "d"]
        else
          TbResp.ok
            [⟨Option.some "u1", Option.some 100, PyVal.none, PyVal.int 600, "", "", "",
              Option.none⟩]
            false Option.none Option.none)
      50 0 ["a", "b", "c", "d", "e"] [] [] =
      .ok
        ([⟨Option.some "u1", Option.some 100, PyVal.none, PyVal.int 600, "", "", "",
            Option.none⟩],
          [(0, ["a", "b", "c", "d", "e"]),
            (0, (["a", "b", "c", "d", "e"].filter
              (fun u => decide (u ∉ (["b", "d"] : List String)))))]) :=
  (C2_teamboard_partial_rejection
    (fun _ ids =>
      if ids = ["a", "b", "c", "d", "e"] then TbResp.forbidden ["b", "d"]
      else
        TbResp.ok
          [⟨Option.some "u1", Option.some 100, PyVal.none, PyVal.int 600, "", "", "",
            Option.none⟩]
          false Option.none Option.none)
    ["a", "b", "c", "d", "e"] ["b", "d"]
    [⟨Option.some "u1", Option.some 100, PyVal.none, PyVal.int 600, "", "", "", Option.none⟩]
    Option.none Option.none (by rfl) (by decide) (by decide) (by rfl)).1

/-- C1: in the Teamboard adapter, a record whose `issueId` coerces to a
numeric id is never kept (excluded from the adapter's output); every kept
record has a non-numeric (coerced-to-`None`) issue reference, so only such
records can contribute to any user's aggregate from this adapter; and a
record whose `issueId` is non-null but non-numeric — when it passes the
assignee/date/positive-seconds filters — is kept as an event entry with the
non-numeric flag set, counted once in `skipped_issue_logs_non_numeric` and
once in `included_events`. -/
theorem C1_teamboard_issue_filter :
    (∀ tracked : String → Bool, ∀ tl : TbLog, ∀ n : Int,
      coerce_issue_id tl.issueId = Option.some n →
      ∀ it : PushItem, ∀ b : Bool, tbClassify tracked tl ≠ TbOutcome.keep it b) ∧
    (∀ tracked : String → Bool, ∀ tl : TbLog, ∀ it : PushItem, ∀ b : Bool,
      tbClassify tracked tl = TbOutcome.keep it b →
      coerce_issue_id tl.issueId = Option.none) ∧
    (∀ tracked : String → Bool, ∀ tl : TbLog, ∀ a : String, ∀ d : Int,
      tl.assignee = Option.some a → a ≠ "" → tracked a = true →
      tl.date = Option.some d →
      coerce_issue_id tl.issueId = Option.none →
      pyNullish tl.issueId = false →
      0 < tbSeconds tl.timeSpentSeconds →
      tbClassify tracked tl =
        TbOutcome.keep
          (tbBuildEntry a d (tbSeconds tl.timeSpentSeconds) tl.tbType tl.notes tl.summary
            tl.info_started) true ∧
      tbStats tracked [tl] = ⟨1, 0, 1⟩) := by
  have key : ∀ (tracked : String → Bool) (tl : TbLog) (it : PushItem) (b : Bool),
      tbClassify tracked tl = TbOutcome.keep it b →
      coerce_issue_id tl.issueId = Option.none := by
    intro tracked tl it b h
    unfold tbClassify at h
    repeat' split at h
    all_goals simp_all
  refine ⟨?_, key, ?_⟩
  · intro tracked tl n hc it b hk
    have hn := key tracked tl it b hk
    rw [hn] at hc
    exact Option.noConfusion hc
  · intro tracked tl a d ha hne htr hd hci hnn hpos
    have hcls : tbClassify tracked tl =
        TbOutcome.keep
          (tbBuildEntry a d (tbSeconds tl.timeSpentSeconds) tl.tbType tl.notes tl.summary
            tl.info_started) true := by
      unfold tbClassify
      rw [ha]
      simp only []
      rw [if_neg (by simp [hne, htr])]
      rw [hd]
      simp only []
      rw [hci]
      simp only []
      rw [if_neg (by omega)]
      rw [hnn]
      rfl
    exact ⟨hcls, by simp [tbStats, hcls]⟩

/-- Witness for `C1_teamboard_issue_filter`: a record with the non-null,
non-numeric `issueId` string `"null"` is kept as an event and counted in the
non-numeric diagnostics counter. -/
theorem C1_witness :
    tbClassify (fun a => a == "u1")
        ⟨Option.some "u1", Option.some 100, PyVal.str "null", PyVal.int 600, "t", "n", "s",
          Option.none⟩ =
      TbOutcome.keep
        (tbBuildEntry "u1" 100 (tbSeconds (PyVal.int 600)) "t" "n" "s" Option.none) true ∧
    tbStats (fun a => a == "u1")
        [⟨Option.some "u1", Option.some 100, PyVal.str "null", PyVal.int 600, "t", "n", "s",
          Option.none⟩] = ⟨1, 0, 1⟩ :=
  C1_teamboard_issue_filter.2.2 (fun a => a == "u1")
    ⟨Option.some "u1", Option.some 100, PyVal.str "null", PyVal.int 600, "t", "n", "s",
      Option.none⟩
    "u1" 100 rfl (by decide) rfl rfl (by decide) (by decide) (by decide)

theorem entriesTotal_append (es : List Entry) (e : Entry) :
    entriesTotal (es ++ [e]) = entriesTotal es + e.time_spent_seconds := by
  simp [entriesTotal]

theorem updateFirst_inv (P : UserAgg → Prop) (f : UserAgg → UserAgg)
    (hf : ∀ a, P a → P (f a)) :
    ∀ (st : List UserAgg) (uid : Nat), (∀ a ∈ st, P a) →
      ∀ a ∈ updateFirst st uid f, P a := by
  intro st
  induction st with
  | nil => intro uid _ a ha; simp [updateFirst] at ha
  | cons b t ih =>
    intro uid h a ha
    unfold updateFirst at ha
    by_cases hb : b.user_id = uid
    · rw [if_pos hb] at ha
      rcases List.mem_cons.mp ha with rfl | ha
      · exact hf b (h b (List.mem_cons_self b t))
      · exact h a (List.mem_cons_of_mem b ha)
    · rw [if_neg hb] at ha
      rcases List.mem_cons.mp ha with rfl | ha
      · exact h a (List.mem_cons_self a t)
      · exact ih uid (fun x hx => h x (List.mem_cons_of_mem b hx)) a ha

/-- The merge site preserves the total-equals-sum invariant whenever the
added seconds equal the appended entry's `time_spent_seconds`. -/
theorem pushEntry_inv (users : List UserRec) (st : List UserAgg) (it : PushItem)
    (hwf : it.secs = it.entry.time_spent_seconds)
    (h : ∀ a ∈ st, a.total_seconds = entriesTotal a.entries) :
    ∀ a ∈ pushEntry users st it, a.total_seconds = entriesTotal a.entries := by
  unfold pushEntry
  cases hl : lookupUser users it.account with
  | none => exact h
  | some u =>
    refine updateFirst_inv _ _ ?_ st u.id h
    intro a ha
    simp only []
    rw [entriesTotal_append, ← ha, ← hwf]

theorem mergeItems_inv (users : List UserRec) :
    ∀ (items : List PushItem) (st : List UserAgg),
      (∀ it ∈ items, it.secs = it.entry.time_spent_seconds) →
      (∀ a ∈ st, a.total_seconds = entriesTotal a.entries) →
      ∀ a ∈ mergeItems users st items, a.total_seconds = entriesTotal a.entries := by
  intro items
  induction items with
  | nil => intro st _ h; simpa [mergeItems] using h
  | cons it t ih =>
    intro st hwf h
    have h1 := pushEntry_inv users st it (hwf it (List.mem_cons_self it t)) h
    simpa [mergeItems, List.foldl_cons] using
      ih (pushEntry users st it) (fun x hx => hwf x (List.mem_cons_of_mem it hx)) h1

theorem initUserAgg_inv (u : UserRec) :
    (initUserAgg u).total_seconds = entriesTotal (initUserAgg u).entries := by
  simp [initUserAgg, entriesTotal]

theorem mem_insertByTotal (a x : UserAgg) :
    ∀ l : List UserAgg, x ∈ insertByTotal a l → x = a ∨ x ∈ l := by
  intro l
  induction l with
  | nil => intro h; simpa [insertByTotal] using h
  | cons b t ih =>
    intro h
    unfold insertByTotal at h
    by_cases hb : b.total_seconds < a.total_seconds
    · rw [if_pos hb] at h
      rcases List.mem_cons.mp h with rfl | h
      · exact Or.inl rfl
      · exact Or.inr h
    · rw [if_neg hb] at h
      rcases List.mem_cons.mp h with rfl | h
      · exact Or.inr (List.mem_cons_self _ _)
      · rcases ih h with rfl | h
        · exact Or.inl rfl
        · exact Or.inr (List.mem_cons_of_mem b h)

theorem mem_sortByTotal (x : UserAgg) :
    ∀ l : List UserAgg, x ∈ sortByTotal l → x ∈ l := by
  have main : ∀ (l acc : List UserAgg),
      x ∈ l.foldl (fun acc a => insertByTotal a acc) acc → x ∈ acc ∨ x ∈ l := by
    intro l
    induction l with
    | nil => intro acc h; exact Or.inl (by simpa using h)
    | cons b t ih =>
      intro acc h
      simp only [List.foldl_cons] at h
      rcases ih (insertByTotal b acc) h with h1 | h1
      · rcases mem_insertByTotal b x acc h1 with rfl | h2
        · exact Or.inr (List.mem_cons_self _ _)
        · exact Or.inl h2
      · exact Or.inr (List.mem_cons_of_mem b h1)
  intro l h
  rcases main l [] h with h1 | h1
  · simp at h1
  · exact h1

theorem primaryCollect_wf (tracked : String → Bool) (ws we : Int) (resolver : Resolver)
    (primRaw : Except Unit (List RawWorklog)) (items : List PushItem)
    (h : primaryCollect tracked ws we resolver primRaw = .ok items) :
    ∀ it ∈ items, it.secs = it.entry.time_spent_seconds := by
  unfold primaryCollect at h
  cases primRaw with
  | error e => exact absurd h (by simp)
  | ok raw =>
    simp only [] at h
    cases hn : primNormalize tracked ws we raw with
    | error e => rw [hn] at h; exact absurd h (by simp)
    | ok norm =>
      rw [hn] at h
      simp only [Except.ok.injEq] at h
      subst h
      intro it hit
      rcases List.mem_map.mp hit with ⟨x, _, rfl⟩
      rfl

theorem legacyNormalize_wf (tracked : String → Bool) (ws we : Int) :
    ∀ issues : List LegacyIssue, ∀ it ∈ legacyNormalize tracked ws we issues,
      it.secs = it.entry.time_spent_seconds := by
  have one : ∀ (ik isum : String) (wl : LegacyWL) (it : PushItem),
      legacyProcessWL tracked ws we ik isum wl = Option.some it →
      it.secs = it.entry.time_spent_seconds := by
    intro ik isum wl it h
    simp only [legacyProcessWL] at h
    repeat' split at h
    all_goals
      first
      | exact Option.noConfusion h
      | (injection h with h2; subst h2; rfl)
  intro issues
  induction issues with
  | nil => intro it hit; simp [legacyNormalize] at hit
  | cons iss t ih =>
    intro it hit
    unfold legacyNormalize at hit
    rcases List.mem_append.mp hit with h1 | h1
    · rcases List.mem_filterMap.mp h1 with ⟨wl, _, hw⟩
      exact one iss.issue_key iss.issue_summary wl it hw
    · exact ih it h1

theorem devNormalize_wf (tracked : String → Bool) (logs : List DevLog) :
    ∀ it ∈ devNormalize tracked logs, it.secs = it.entry.time_spent_seconds := by
  intro it hit
  rcases List.mem_filterMap.mp hit with ⟨tl, _, hw⟩
  simp only [devProcess] at hw
  repeat' split at hw
  all_goals
    first
    | exact Option.noConfusion hw
    | (injection hw with h2; subst h2; rfl)

theorem tbItems_wf (tracked : String → Bool) (logs : List TbLog) :
    ∀ it ∈ tbItems tracked logs, it.secs = it.entry.time_spent_seconds := by
  intro it hit
  rcases List.mem_filterMap.mp hit with ⟨tl, _, hw⟩
  revert hw
  cases hc : tbClassify tracked tl with
  | keep it2 b =>
    intro hw
    simp only [Option.some.injEq] at hw
    subst hw
    simp only [tbClassify] at hc
    repeat' split at hc
    all_goals
      first
      | exact TbOutcome.noConfusion hc
      | (injection hc with h2 h3; rw [← h2]; rfl)
  | skipNoUser => intro hw; exact absurd hw (by simp)
  | skipNoDate => intro hw; exact absurd hw (by simp)
  | skipIssueLog => intro hw; exact absurd hw (by simp)
  | skipNonPositive => intro hw; exact absurd hw (by simp)

/-- C7: every aggregate produced by the engine has `total_seconds` equal to
the exact integer sum of its entries' `time_spent_seconds`, for every
combination of sources (primary or legacy, hour-based and paginated
timesheet adapters). -/
theorem C7_total_equals_sum
    (users : List UserRec) (ws we : Int) (resolver : Resolver)
    (primRaw : Except Unit (List RawWorklog)) (legacyIssues : List LegacyIssue)
    (devRes : Except Unit (List DevLog)) (tbRes : Except Unit (List TbLog)) :
    ∀ a ∈ runEngine users ws we resolver primRaw legacyIssues devRes tbRes,
      a.total_seconds = entriesTotal a.entries := by
  have inv0 : ∀ x ∈ users.map initUserAgg, x.total_seconds = entriesTotal x.entries := by
    intro x hx
    rcases List.mem_map.mp hx with ⟨u, _, rfl⟩
    exact initUserAgg_inv u
  intro a ha
  unfold runEngine at ha
  have ha2 := mem_sortByTotal a _ ha
  revert ha2
  cases hp : primaryCollect (trackedOf users) ws we resolver primRaw with
  | ok items =>
    have inv1 := mergeItems_inv users items (users.map initUserAgg)
      (primaryCollect_wf _ ws we resolver primRaw items hp) inv0
    cases hd : devRes with
    | ok dlogs =>
      have inv2 := mergeItems_inv users (devNormalize (trackedOf users) dlogs) _
        (devNormalize_wf _ dlogs) inv1
      cases ht : tbRes with
      | ok tlogs =>
        exact fun ha2 => mergeItems_inv users (tbItems (trackedOf users) tlogs) _
          (tbItems_wf _ tlogs) inv2 a ha2
      | error e => exact fun ha2 => inv2 a ha2
    | error e =>
      cases ht : tbRes with
      | ok tlogs =>
        exact fun ha2 => mergeItems_inv users (tbItems (trackedOf users) tlogs) _
          (tbItems_wf _ tlogs) inv1 a ha2
      | error e2 => exact fun ha2 => inv1 a ha2
  | error e =>
    have inv1 := mergeItems_inv users (legacyNormalize (trackedOf users) ws we legacyIssues)
      (users.map initUserAgg) (legacyNormalize_wf _ ws we legacyIssues) inv0
    cases hd : devRes with
    | ok dlogs =>
      have inv2 := mergeItems_inv users (devNormalize (trackedOf users) dlogs) _
        (devNormalize_wf _ dlogs) inv1
      cases ht : tbRes with
      | ok tlogs =>
        exact fun ha2 => mergeItems_inv users (tbItems (trackedOf users) tlogs) _
          (tbItems_wf _ tlogs) inv2 a ha2
      | error e2 => exact fun ha2 => inv2 a ha2
    | error e2 =>
      cases ht : tbRes with
      | ok tlogs =>
        exact fun ha2 => mergeItems_inv users (tbItems (trackedOf users) tlogs) _
          (tbItems_wf _ tlogs) inv1 a ha2
      | error e3 => exact fun ha2 => inv1 a ha2

/-- Witness for `C7_total_equals_sum`: a run whose single user gathered one
600-second legacy entry has `total_seconds = 600 = ` the sum of its
entries. -/
theorem C7_witness :
    (UserAgg.mk 1 (Option.some "U") (Option.some "u1") 600
        [⟨"K1", "S1", Option.some "2020-01-02T10:00:00Z", Option.some 5, 600, "10m",
          "c"⟩]).total_seconds =
      entriesTotal
        (UserAgg.mk 1 (Option.some "U") (Option.some "u1") 600
          [⟨"K1", "S1", Option.some "2020-01-02T10:00:00Z", Option.some 5, 600, "10m",
            "c"⟩]).entries :=
  C7_total_equals_sum [⟨1, Option.some "U", Option.some "u1"⟩] 0 10 (fun _ => ("K", "S"))
    (.error ())
    [⟨"K1", "S1",
      [⟨Option.some "u1", Option.some ⟨"2020-01-02T10:00:00Z", Option.some 5⟩, 600, "10m",
        "c"⟩]⟩]
    (.ok []) (.ok []) _ (by decide)

/-- C4: when the primary (change-feed) path raises anywhere — all its
exceptions surface in `primaryCollect`, since the merge loop itself performs
only guarded reads and appends — the engine's output equals what the legacy
collector alone, plus the two timesheet adapters, produce: no primary-path
entry is merged. -/
theorem C4_full_fallback
    (users : List UserRec) (ws we : Int) (resolver : Resolver)
    (primRaw : Except Unit (List RawWorklog)) (legacyIssues : List LegacyIssue)
    (devRes : Except Unit (List DevLog)) (tbRes : Except Unit (List TbLog))
    (h : primaryCollect (trackedOf users) ws we resolver primRaw = .error ()) :
    runEngine users ws we resolver primRaw legacyIssues devRes tbRes =
      runEngineLegacyOnly users ws we legacyIssues devRes tbRes := by
  simp only [runEngine, runEngineLegacyOnly]
  rw [h]

/-- Witness for `C4_full_fallback`: with a failing change-feed fetch the
engine's result equals the legacy-only pipeline's result. -/
theorem C4_witness :
    runEngine [⟨1, Option.some "U", Option.some "u1"⟩] 0 10 (fun _ => ("K", "S"))
        (.error ())
        [⟨"K1", "S1",
          [⟨Option.some "u1", Option.some ⟨"t", Option.some 5⟩, 600, "10m", "c"⟩]⟩]
        (.ok []) (.ok []) =
      runEngineLegacyOnly [⟨1, Option.some "U", Option.some "u1"⟩] 0 10
        [⟨"K1", "S1",
          [⟨Option.some "u1", Option.some ⟨"t", Option.some 5⟩, 600, "10m", "c"⟩]⟩]
        (.ok []) (.ok []) :=
  C4_full_fallback [⟨1, Option.some "U", Option.some "u1"⟩] 0 10 (fun _ => ("K", "S"))
    (.error ())
    [⟨"K1", "S1", [⟨Option.some "u1", Option.some ⟨"t", Option.some 5⟩, 600, "10m", "c"⟩]⟩]
    (.ok []) (.ok []) (by rfl)

/-- C8 counterexample: the claim says every output entry's `worklog_date`
lies inside the resolved window for all possible upstream responses; but the
hour-based timesheet adapter performs no window check on the response's
`date` (worklog_fetcher.py:700-701), so a response dated day 500 lands in the
output of a window [100, 101]. -/
theorem C8_counterexample :
    ∃ a ∈ runEngine [⟨1, Option.some "U", Option.some "u1"⟩] 100 101 (fun _ => ("", ""))
        (.error ()) []
        (.ok [⟨Option.some "u1", Option.some 500, Option.some ⟨1, 1⟩, "s", "", Option.none⟩])
        (.ok []),
      ∃ e ∈ a.entries, dateInWindow 100 101 e.worklog_date = false := by decide

/-- C8 (amended): the *Jira* paths enforce the window — every record kept by
the primary normalization has its logged day inside `[ws, we]` (and its built
entry carries exactly that day), and every legacy record kept with a present
`worklog_date` has it inside the window; the two timesheet adapters pass the
response's date through unchecked, and a legacy record with a falsy `started`
is kept with no date at all. -/
theorem C8_amended :
    (∀ (tracked : String → Bool) (ws we : Int) (raw : List RawWorklog)
        (items : List PrimItem),
      primNormalize tracked ws we raw = .ok items →
      ∀ it ∈ items, ws ≤ it.worklog_date ∧ it.worklog_date ≤ we) ∧
    (∀ (resolver : Resolver) (it : PrimItem),
      (primBuild resolver it).entry.worklog_date = Option.some it.worklog_date) ∧
    (∀ (tracked : String → Bool) (ws we : Int) (ik isum : String) (wl : LegacyWL)
        (it : PushItem),
      legacyProcessWL tracked ws we ik isum wl = Option.some it →
      ∀ d : Int, it.entry.worklog_date = Option.some d → ws ≤ d ∧ d ≤ we) := by
  refine ⟨?_, fun resolver it => rfl, ?_⟩
  · intro tracked ws we raw
    have one : ∀ (wl : RawWorklog) (it : PrimItem),
        primNorm1 tracked ws we wl = .ok (Option.some it) →
        ws ≤ it.worklog_date ∧ it.worklog_date ≤ we := by
      intro wl it h
      simp only [primNorm1] at h
      repeat' split at h
      all_goals
        first
        | exact Except.noConfusion h
        | (injection h with h2; exact Option.noConfusion h2)
        | (injection h with h2; injection h2 with h3; subst h3; dsimp only; omega)
    induction raw with
    | nil =>
      intro items h it hit
      simp only [primNormalize] at h
      injection h with h2
      subst h2
      simp at hit
    | cons wl t ih =>
      intro items h it hit
      simp only [primNormalize] at h
      cases h1 : primNorm1 tracked ws we wl with
      | error e => rw [h1] at h; exact Except.noConfusion h
      | ok o =>
        rw [h1] at h
        cases o with
        | none => exact ih items h it hit
        | some x =>
          cases h2 : primNormalize tracked ws we t with
          | error e => rw [h2] at h; exact Except.noConfusion h
          | ok rest =>
            rw [h2] at h
            injection h with h3
            subst h3
            rcases List.mem_cons.mp hit with rfl | hh
            · exact one wl it h1
            · exact ih rest h2 it hh
  · intro tracked ws we ik isum wl it h
    simp only [legacyProcessWL] at h
    repeat' split at h
    all_goals
      first
      | exact Option.noConfusion h
      | (injection h with h2; subst h2; intro d hd; dsimp only at hd;
         first
         | exact Option.noConfusion hd
         | (injection hd with h3; omega))

/-- Witness for `C8_amended`: a primary record logged on day 5 inside the
window [0, 10] survives with that day. -/
theorem C8_witness :
    (0 : Int) ≤ (⟨"u1", "t", 5, 600, "10m", "c", Option.none, ""⟩ : PrimItem).worklog_date ∧
    (⟨"u1", "t", 5, 600, "10m", "c", Option.none, ""⟩ : PrimItem).worklog_date ≤ 10 :=
  C8_amended.1 (fun a => a == "u1") 0 10
    [⟨Option.some "u1", Option.some ⟨"t", Option.some 5⟩, PyVal.int 600, Option.some "10m",
      "c", Option.none, ""⟩]
    [⟨"u1", "t", 5, 600, "10m", "c", Option.none, ""⟩] (by rfl)
    ⟨"u1", "t", 5, 600, "10m", "c", Option.none, ""⟩ (by decide)

/-- C9 counterexample: the claim says every counted entry has
`duration_seconds > 0` for every source; but the primary path applies no
positivity filter (worklog_fetcher.py:501-510) — a hydrated record with a
missing `timeSpentSeconds` is normalized to 0 seconds, appended and added to
the total. -/
theorem C9_counterexample :
    ∃ a ∈ runEngine [⟨1, Option.some "U", Option.some "u1"⟩] 0 10 (fun _ => ("K", "S"))
        (.ok [⟨Option.some "u1", Option.some ⟨"t", Option.some 5⟩, PyVal.none, Option.none,
          "c", Option.none, ""⟩])
        [] (.ok []) (.ok []),
      ∃ e ∈ a.entries, e.time_spent_seconds ≤ 0 := by decide

/-- C9 (amended): the positivity filter exists only in the two timesheet
adapters: every record kept by the hour-based adapter and every record kept
by the paginated (Teamboard) adapter carries strictly positive seconds (both
in the amount added to the total and in the appended entry); the primary and
legacy Jira paths apply no such filter. -/
theorem C9_amended :
    (∀ (tracked : String → Bool) (logs : List DevLog),
      ∀ it ∈ devNormalize tracked logs, 0 < it.secs ∧ 0 < it.entry.time_spent_seconds) ∧
    (∀ (tracked : String → Bool) (tl : TbLog) (it : PushItem) (b : Bool),
      tbClassify tracked tl = TbOutcome.keep it b →
      0 < it.secs ∧ 0 < it.entry.time_spent_seconds) := by
  constructor
  · intro tracked logs it hit
    rcases List.mem_filterMap.mp hit with ⟨tl, _, hw⟩
    simp only [devProcess] at hw
    repeat' split at hw
    all_goals
      first
      | exact Option.noConfusion hw
      | (injection hw with h2; subst h2; dsimp only; omega)
  · intro tracked tl it b h
    simp only [tbClassify] at h
    repeat' split at h
    all_goals
      first
      | exact TbOutcome.noConfusion h
      | (injection h with h2 h3; rw [← h2]; dsimp only [tbBuildEntry]; omega)

/-- Witness for `C9_amended`: a one-hour timesheet record yields a kept item
whose added and stored seconds are both 3600 > 0. -/
theorem C9_witness :
    0 < (⟨"u1", 3600, ⟨"", "TimePlanner", Option.none, Option.some 500, 3600, "1h", "s"⟩⟩ :
        PushItem).secs ∧
    0 < (⟨"u1", 3600, ⟨"", "TimePlanner", Option.none, Option.some 500, 3600, "1h", "s"⟩⟩ :
        PushItem).entry.time_spent_seconds :=
  C9_amended.1 (fun a => a == "u1")
    [⟨Option.some "u1", Option.some 500, Option.some ⟨1, 1⟩, "s", "", Option.none⟩]
    ⟨"u1", 3600, ⟨"", "TimePlanner", Option.none, Option.some 500, 3600, "1h", "s"⟩⟩
    (by decide)

/-- C10: `get_team_worklog` returns `[]`, independently of every upstream
oracle (none is consulted — the result is `ok []` even when connecting would
raise), in each of the four prelude cases: unknown team id, a supplied
credential not linked to the team, an empty resolved member set, and
credential filtering removing every member. -/
theorem C10_prelude_empty
    (db : Db) (team_id : Nat) (credential_id app_user_id : Option Nat) :
    (team_id ∉ db.teams →
      ∀ (connect : Except Unit Unit) (today : Int) (days : DaysParam) (resolver : Resolver)
        (primRaw : Except Unit (List RawWorklog)) (legacyIssues : List LegacyIssue)
        (devRes : Except Unit (List DevLog)) (tbRes : Except Unit (List TbLog)),
        getTeamWorklog db team_id credential_id app_user_id connect today days resolver
          primRaw legacyIssues devRes tbRes = .ok []) ∧
    (∀ c : Nat, credential_id = Option.some c → (c, team_id) ∉ db.credentialTeams →
      ∀ (connect : Except Unit Unit) (today : Int) (days : DaysParam) (resolver : Resolver)
        (primRaw : Except Unit (List RawWorklog)) (legacyIssues : List LegacyIssue)
        (devRes : Except Unit (List DevLog)) (tbRes : Except Unit (List TbLog)),
        getTeamWorklog db team_id credential_id app_user_id connect today days resolver
          primRaw legacyIssues devRes tbRes = .ok []) ∧
    (teamUserIds db team_id app_user_id = [] →
      ∀ (connect : Except Unit Unit) (today : Int) (days : DaysParam) (resolver : Resolver)
        (primRaw : Except Unit (List RawWorklog)) (legacyIssues : List LegacyIssue)
        (devRes : Except Unit (List DevLog)) (tbRes : Except Unit (List TbLog)),
        getTeamWorklog db team_id credential_id app_user_id connect today days resolver
          primRaw legacyIssues devRes tbRes = .ok []) ∧
    (∀ f : List Nat, filterUserIds db credential_id app_user_id = Option.some f →
      (teamUserIds db team_id app_user_id).filter (fun u => decide (u ∈ f)) = [] →
      ∀ (connect : Except Unit Unit) (today : Int) (days : DaysParam) (resolver : Resolver)
        (primRaw : Except Unit (List RawWorklog)) (legacyIssues : List LegacyIssue)
        (devRes : Except Unit (List DevLog)) (tbRes : Except Unit (List TbLog)),
        getTeamWorklog db team_id credential_id app_user_id connect today days resolver
          primRaw legacyIssues devRes tbRes = .ok []) := by
  have key : resolveTrackedUsers db team_id credential_id app_user_id = Option.none →
      ∀ (connect : Except Unit Unit) (today : Int) (days : DaysParam) (resolver : Resolver)
        (primRaw : Except Unit (List RawWorklog)) (legacyIssues : List LegacyIssue)
        (devRes : Except Unit (List DevLog)) (tbRes : Except Unit (List TbLog)),
        getTeamWorklog db team_id credential_id app_user_id connect today days resolver
          primRaw legacyIssues devRes tbRes = .ok [] := by
    intro h connect today days resolver primRaw legacyIssues devRes tbRes
    unfold getTeamWorklog
    rw [h]
  refine ⟨?_, ?_, ?_, ?_⟩
  · intro h
    refine key ?_
    simp only [resolveTrackedUsers]
    rw [if_pos h]
  · intro c hc h
    refine key ?_
    subst hc
    simp only [resolveTrackedUsers]
    by_cases ht : team_id ∉ db.teams
    · rw [if_pos ht]
    · rw [if_neg ht, if_pos (by simp [credAllowed, h])]
  · intro h
    refine key ?_
    simp only [resolveTrackedUsers]
    by_cases ht : team_id ∉ db.teams
    · rw [if_pos ht]
    · rw [if_neg ht]
      by_cases hc2 : credAllowed db team_id credential_id = false
      · rw [if_pos hc2]
      · rw [if_neg hc2, if_pos h]
  · intro f hf h
    refine key ?_
    simp only [resolveTrackedUsers]
    by_cases ht : team_id ∉ db.teams
    · rw [if_pos ht]
    · rw [if_neg ht]
      by_cases hc2 : credAllowed db team_id credential_id = false
      · rw [if_pos hc2]
      · rw [if_neg hc2]
        by_cases hu : teamUserIds db team_id app_user_id = []
        · rw [if_pos hu]
        · rw [if_neg hu, hf]
          simp only []
          rw [if_pos h]

/-- Witness for `C10_prelude_empty`: an unknown team id yields `ok []` even
though every oracle — including the Jira connection — would raise. -/
theorem C10_witness :
    getTeamWorklog ⟨[], [], [], [], [], [], []⟩ 7 Option.none Option.none (.error ()) 0
      (DaysParam.str "lastweek") (fun _ => ("", "")) (.error ()) [] (.error ())
      (.error ()) = .ok [] :=
  (C10_prelude_empty ⟨[], [], [], [], [], [], []⟩ 7 Option.none Option.none).1 (by decide)
    (.error ()) 0 (DaysParam.str "lastweek") (fun _ => ("", "")) (.error ()) [] (.error ())
    (.error ())

end Worklog
